import Mathlib

/-!
Verification of the `environ` fsm engine (package `fsm` of the gravity
repository, file `lib/environ/internal/fsm/fsm.go`) against its
natural-language specification.

The Go code is shallowly embedded: Go `error` values become
`Option GoError` (with `none` for the `nil` error), injected interfaces
(the operator/state-store and the remote runner) become explicit
behaviour parameters, and effectful inputs (timestamps, fresh UUIDs)
become explicit arguments.  Functions of this repository that the engine
calls but whose source is not part of the excerpt (`libfsm.IsCompleted`,
`libfsm.FindPhase`, `utils.Max`, `utils.RetryWithInterval`,
`ops.CompleteOperation`, `ops.FailOperation`, the `libphase` constants
and `libphase.NewSync`) are modelled from the specification; each such
definition says so in its doc comment.
-/

namespace Environ

/-- Kind of a Go error, matching the trace error taxonomy used by the
engine: `trace.BadParameter`, `trace.NotFound`, and everything else. -/
inductive ErrKind where
  | badParameter
  | notFound
  | generic
deriving DecidableEq, Repr

/-- Model of a non-nil Go `error` value: its kind, its message, and
whether it is a connection-refused (transient transport) error, which is
what `utils.IsConnectionRefusedError` reports. -/
structure GoError where
  kind : ErrKind := ErrKind.generic
  msg : String := ""
  connRefused : Bool := false
deriving DecidableEq, Repr

/-- Model of `trace.BadParameter(msg)`. -/
def badParameter (msg : String) : GoError :=
  { kind := ErrKind.badParameter, msg := msg }

/-- Model of `trace.NotFound(msg)`. -/
def notFound (msg : String) : GoError :=
  { kind := ErrKind.notFound, msg := msg }

/-- Model of `trace.Wrap`: wrapping preserves the wrapped error (and
`trace.Wrap(nil)` is `nil`), so at this level of abstraction it is the
identity on `Option GoError`. -/
def traceWrap (e : Option GoError) : Option GoError := e

/-- Model of `trace.Unwrap` on a non-nil error: unwrapping undoes
wrapping, so it is the identity on the modelled error. -/
def traceUnwrap (e : GoError) : GoError := e

/-- Outcome of one attempt of the function passed to
`utils.RetryWithInterval` by `retry`: the attempt succeeded, failed with
an error classified retryable (returned wrapped), or failed with an
error classified permanent (returned as `backoff.PermanentError`). -/
inductive RetryOutcome where
  | success
  | transientErr (e : GoError)
  | permanentErr (e : GoError)
deriving DecidableEq, Repr

/-- The error classification performed by the closure inside `retry`
(fsm.go lines 340-349): a nil error is success, a connection-refused
error is returned wrapped (hence retryable), and any other error is
wrapped in `backoff.PermanentError` (stopping the retry loop). -/
def retryClassify (res : Option GoError) : RetryOutcome :=
  match res with
  | none => RetryOutcome.success
  | some e =>
    if e.connRefused then RetryOutcome.transientErr e
    else RetryOutcome.permanentErr e

/-- Whether an attempt result is a transient (connection-refused) error. -/
def isTransientRes (res : Option GoError) : Bool :=
  match res with
  | none => false
  | some e => e.connRefused

/-- Go's `time.Minute` as a count of nanoseconds. -/
def timeMinute : Nat := 60 * 1000000000

/-- The constant `maxRetryElapsedTime = 5 * time.Minute` (fsm.go line
352): the wall-clock ceiling, in nanoseconds, of the timeout context
under which `retry` runs. -/
def maxRetryElapsedTime : Nat := 5 * timeMinute

/-- Modelled from the spec: the deterministic part of
`utils.NewUnlimitedExponentialBackOff`, an unbounded-attempt exponential
backoff.  The backoff interval before retry `i + 1` starts at 500ms and
grows by a factor of 1.5 per attempt, capped at a maximal interval of
60s (randomization is not modelled); all values in nanoseconds. -/
def expBackoffInterval (i : Nat) : Nat :=
  min (500000000 * 3 ^ i / 2 ^ i) 60000000000

/-- Modelled from the spec: `utils.RetryWithInterval` running under a
context with deadline `deadline`.  The loop makes attempt `i` at elapsed
time `t`; on success or on a permanent error it stops, and on a
transient error it sleeps the backoff interval (modelled as consuming
`intv i + 1` time units — the interval plus one tick for the attempt
itself) and retries, unless that would reach the context deadline, in
which case the context cancels the loop and the last error is returned.
Returns the final error (or `none`) together with the number of attempts
made, the latter as instrumentation for the call-count properties. -/
def retryWithInterval (deadline : Nat) (intv : Nat → Nat)
    (fn : Nat → RetryOutcome) (i t : Nat) : Option GoError × Nat :=
  match fn i with
  | RetryOutcome.success => (none, 1)
  | RetryOutcome.permanentErr e => (some e, 1)
  | RetryOutcome.transientErr e =>
    if h : t + intv i + 1 < deadline then
      let r := retryWithInterval deadline intv fn (i + 1) (t + intv i + 1)
      (r.1, r.2 + 1)
    else
      (some e, 1)
termination_by deadline - t
decreasing_by omega

/-- The retry wrapper `retry(fn)` (fsm.go lines 336-350): runs `fn`
under a context with timeout `maxRetryElapsedTime`, retrying with the
unlimited exponential backoff, classifying each failure via
`retryClassify`.  `fn i` is the result of the `i`-th call of the wrapped
function; the second component counts the calls made. -/
def retry (fn : Nat → Option GoError) : Option GoError × Nat :=
  retryWithInterval maxRetryElapsedTime expBackoffInterval
    (fun i => retryClassify (fn i)) 0 0

/-- State of a single phase, per the spec's state enum
`Unstarted → InProgress → {Completed | Failed}`. -/
inductive PhaseState where
  | unstarted
  | inProgress
  | completed
  | failed
deriving DecidableEq, Repr

/-- One phase of an operation plan (`storage.OperationPhase`): ID,
human-readable description, ordinal step, state, and nested sub-phases. -/
inductive OperationPhase where
  | mk (pid : String) (description : String) (step : Nat)
       (state : PhaseState) (phases : List OperationPhase)
deriving Repr

/-- The ID of a phase. -/
def OperationPhase.pid : OperationPhase → String
  | OperationPhase.mk i _ _ _ _ => i

/-- The description of a phase. -/
def OperationPhase.description : OperationPhase → String
  | OperationPhase.mk _ d _ _ _ => d

/-- The ordinal step of a phase. -/
def OperationPhase.step : OperationPhase → Nat
  | OperationPhase.mk _ _ s _ _ => s

/-- The state of a phase. -/
def OperationPhase.state : OperationPhase → PhaseState
  | OperationPhase.mk _ _ _ st _ => st

/-- The nested sub-phases of a phase. -/
def OperationPhase.phases : OperationPhase → List OperationPhase
  | OperationPhase.mk _ _ _ _ ps => ps

/-- An operation plan (`storage.OperationPlan`), restricted to the field
the engine reads: the list of top-level phases. -/
structure OperationPlan where
  phases : List OperationPhase
deriving Repr

mutual

/-- Modelled from the spec: `libfsm.FindPhase`'s lookup inside one
phase — exact match on the ID, including within nested sub-phases. -/
def findPhaseIn : OperationPhase → String → Option OperationPhase
  | OperationPhase.mk i d s st subs, pid =>
    if i = pid then some (OperationPhase.mk i d s st subs)
    else findPhaseList subs pid

/-- Modelled from the spec: `libfsm.FindPhase`'s lookup over a list of
phases, trying each in order. -/
def findPhaseList : List OperationPhase → String → Option OperationPhase
  | [], _ => none
  | p :: ps, pid =>
    match findPhaseIn p pid with
    | some q => some q
    | none => findPhaseList ps pid

end

/-- Modelled from the spec: `libfsm.FindPhase(plan, id)` — exact lookup
by ID, including within nested sub-phases; fails with `NotFound` if
absent. -/
def FindPhase (plan : OperationPlan) (pid : String) :
    Except GoError OperationPhase :=
  match findPhaseList plan.phases pid with
  | some p => Except.ok p
  | none => Except.error (notFound ("no phase " ++ pid))

mutual

/-- Modelled from the spec: whether every leaf phase under this phase is
`Completed` (a phase with sub-phases is judged by its leaves). -/
def phaseCompleted : OperationPhase → Bool
  | OperationPhase.mk _ _ _ st subs =>
    match subs with
    | [] => st == PhaseState.completed
    | q :: qs => phasesCompleted (q :: qs)

/-- Modelled from the spec: whether every leaf phase under every phase
of the list is `Completed`. -/
def phasesCompleted : List OperationPhase → Bool
  | [] => true
  | p :: ps => phaseCompleted p && phasesCompleted ps

end

/-- Modelled from the spec: `libfsm.IsCompleted(plan)` — true iff every
leaf phase of the plan is `Completed`, for arbitrarily nested trees. -/
def IsCompleted (plan : OperationPlan) : Bool :=
  phasesCompleted plan.phases

mutual

/-- Modelled from the spec: applying a phase-state transition to the
persisted plan — the phase whose ID matches gets the new state, nested
sub-phases are searched recursively, everything else is unchanged. -/
def setPhaseStateIn : OperationPhase → String → PhaseState → OperationPhase
  | OperationPhase.mk i d s st subs, pid, ns =>
    if i = pid then OperationPhase.mk i d s ns subs
    else OperationPhase.mk i d s st (setPhaseStateList subs pid ns)

/-- Modelled from the spec: applying a phase-state transition over a
list of phases. -/
def setPhaseStateList :
    List OperationPhase → String → PhaseState → List OperationPhase
  | [], _, _ => []
  | p :: ps, pid, ns => setPhaseStateIn p pid ns :: setPhaseStateList ps pid ns

end

/-- The key identifying one operation (`ops.SiteOperationKey`): cluster
domain plus operation ID. -/
structure SiteOperationKey where
  siteDomain : String
  operationID : String
deriving DecidableEq, Repr

/-- The fields of `ops.SiteOperation` the engine reads: the cluster
domain and the operation ID. -/
structure SiteOperation where
  siteDomain : String
  opID : String
deriving DecidableEq, Repr

/-- `Operation.Key()`: the operation's key. -/
def SiteOperation.key (op : SiteOperation) : SiteOperationKey :=
  { siteDomain := op.siteDomain, operationID := op.opID }

/-- The constant `ops.ProgressStateInProgress`. -/
def progressStateInProgress : String := "in_progress"

/-- The fields of `ops.ProgressEntry` that `UpdateProgress` fills in
(fsm.go lines 176-184); `created` is the timestamp in model time. -/
structure ProgressEntry where
  siteDomain : String
  operationID : String
  completion : Nat
  step : Nat
  state : String
  message : String
  created : Nat
deriving DecidableEq, Repr

/-- Modelled from the spec: `utils.Max` of two integers. -/
def utilsMax (a b : Nat) : Nat := max a b

/-- Modelled from the spec: `utils.ToRawTrace` on the optional error of
a state change — the optional error detail carried by the audit record,
reduced here to the error's message (`nil` stays `nil`). -/
def toRawTrace (e : Option GoError) : Option String :=
  Option.map GoError.msg e

/-- The audit record `storage.PlanChange` built by `ChangePhaseState`
(fsm.go lines 219-227): fresh ID, cluster name, operation ID, phase ID,
new state, optional error detail, creation timestamp. -/
structure PlanChange where
  changeID : String
  clusterName : String
  operationID : String
  phaseID : String
  newState : PhaseState
  errorDetail : Option String
  created : Nat
deriving DecidableEq, Repr

/-- The argument of `ChangePhaseState` (`libfsm.StateChange`): the phase
to transition, the new state, and an optional error. -/
structure StateChange where
  phase : String
  state : PhaseState
  error : Option GoError
deriving Repr

/-- The fields of `libfsm.Params` the engine reads: the phase ID and the
`Force` flag. -/
structure Params where
  phaseID : String
  force : Bool
deriving DecidableEq, Repr

/-- The operation-level state recorded by the state store. -/
inductive OpState where
  | active
  | completedOp
  | failedOp (msg : String)
deriving DecidableEq, Repr

/-- Behaviour-plus-state model of the injected operator/state store as
the engine sees it (each engine-level call's outcome is the result after
the retry wrapper, injected through the `...Result` fields), together
with the store's visible state: the operation state and the list of
progress entries written. -/
structure Store where
  planResult : Except GoError OperationPlan
  progressWriteResult : Option GoError
  completeOperationResult : Option GoError
  failOperationResult : Option GoError
  opState : OpState
  progress : List ProgressEntry

/-- Modelled from the spec: `ops.CompleteOperation(key, operator)` —
marks the whole operation `Completed` in the state store, or fails with
the store's error. -/
def Store.completeOperation (s : Store) (_key : SiteOperationKey) :
    Option GoError × Store :=
  match s.completeOperationResult with
  | some e => (some e, s)
  | none => (none, { s with opState := OpState.completedOp })

/-- Modelled from the spec: `ops.FailOperation(key, operator, msg)` —
marks the whole operation `Failed` with the given message, or fails with
the store's error. -/
def Store.failOperation (s : Store) (_key : SiteOperationKey) (msg : String) :
    Option GoError × Store :=
  match s.failOperationResult with
  | some e => (some e, s)
  | none => (none, { s with opState := OpState.failedOp msg })

/-- The operator's `CreateProgressEntry(key, entry)`: appends the entry
to the store's progress log, or fails with the store's error. -/
def Store.createProgressEntry (s : Store) (_key : SiteOperationKey)
    (entry : ProgressEntry) : Option GoError × Store :=
  match s.progressWriteResult with
  | some e => (some e, s)
  | none => (none, { s with progress := s.progress ++ [entry] })

/-- `engine.GetPlan` (fsm.go lines 253-259): fetches the latest plan
from the operator; `trace.Wrap` on the error is the identity in the
model. -/
def GetPlan (s : Store) : Except GoError OperationPlan := s.planResult

/-- The `ops.ProgressEntry` value built by `UpdateProgress` (fsm.go
lines 176-184) for the given operation, plan, phase and timestamp. -/
def progressEntryOf (op : SiteOperation) (plan : OperationPlan)
    (phase : OperationPhase) (now : Nat) : ProgressEntry :=
  { siteDomain := op.key.siteDomain
    operationID := op.key.operationID
    completion := 100 / utilsMax plan.phases.length 1 * phase.step
    step := phase.step
    state := progressStateInProgress
    message := phase.description
    created := now }

/-- `engine.UpdateProgress` (fsm.go lines 164-193): fetch the plan, find
the phase, build the progress entry and write it; a write failure is
only logged (`Warn`) and does not make the call fail. -/
def UpdateProgress (s : Store) (op : SiteOperation) (now : Nat)
    (params : Params) : Option GoError × Store :=
  match GetPlan s with
  | Except.error e => (traceWrap (some e), s)
  | Except.ok plan =>
    match FindPhase plan params.phaseID with
    | Except.error e => (traceWrap (some e), s)
    | Except.ok phase =>
      let entry := progressEntryOf op plan phase now
      let r := s.createProgressEntry op.key entry
      (none, r.2)

/-- `engine.Complete` (fsm.go lines 197-214): fetch the plan; if it is
completed, mark the operation completed, otherwise mark it failed with
`trace.Unwrap(fsmErr).Error()`.  Calling `Error()` on a nil error value
is a nil-interface method call, which panics in Go; the panic is
modelled by the outer `none`. -/
def Complete (s : Store) (op : SiteOperation) (fsmErr : Option GoError) :
    Option (Option GoError × Store) :=
  match GetPlan s with
  | Except.error e => some (traceWrap (some e), s)
  | Except.ok plan =>
    if IsCompleted plan then
      some (s.completeOperation op.key)
    else
      match fsmErr with
      | none => none
      | some e => some (s.failOperation op.key (traceUnwrap e).msg)

/-- The persisted side of the operator behind
`CreateOperationPlanChange`: the authoritative plan and the append-only
changelog of state changes. -/
structure Backend where
  plan : OperationPlan
  changelog : List PlanChange

/-- Modelled from the spec: the backend's handling of a successful
`CreateOperationPlanChange` — the audit record is appended to the
changelog (never mutated) and the transition is applied to the persisted
plan. -/
def Backend.applyChange (b : Backend) (c : PlanChange) : Backend :=
  { plan := { phases := setPhaseStateList b.plan.phases c.phaseID c.newState }
    changelog := b.changelog ++ [c] }

/-- The `storage.PlanChange` literal built by `ChangePhaseState` (fsm.go
lines 219-227): `newID` is the fresh `uuid.New()`, `now` the
`time.Now().UTC()` timestamp. -/
def planChangeOf (op : SiteOperation) (newID : String) (now : Nat)
    (change : StateChange) : PlanChange :=
  { changeID := newID
    clusterName := op.siteDomain
    operationID := op.opID
    phaseID := change.phase
    newState := change.state
    errorDetail := toRawTrace change.error
    created := now }

/-- `engine.ChangePhaseState` (fsm.go lines 217-234) through
`retryingOperator.CreateOperationPlanChange` (fsm.go lines 301-305): the
audit record is handed to the operator under the `retry` wrapper.
`attempts i` is the backend's response to the `i`-th attempt; if the
retry loop ends in success the backend has appended the record and
applied the transition, otherwise the error is returned (wrapped) and
the backend is unchanged. -/
def ChangePhaseState (op : SiteOperation) (b : Backend)
    (attempts : Nat → Option GoError) (newID : String) (now : Nat)
    (change : StateChange) : Option GoError × Backend :=
  let rcd := planChangeOf op newID now change
  match (retry attempts).1 with
  | some e => (traceWrap (some e), b)
  | none => (none, b.applyChange rcd)

/-- The executor resolved by this engine's spec function: the only
executor kind is the sync executor of `libphase.NewSync`, recorded with
the phase it was resolved for. -/
inductive PhaseExecutor where
  | sync (phaseID : String)
deriving DecidableEq, Repr

/-- The fields of `libfsm.ExecutorParams` that `configToExecutor`
dispatches on: the phase definition. -/
structure ExecutorParams where
  phase : OperationPhase
deriving Repr

/-- Modelled from the spec: the phase-ID root for master-node phases
(`libphase.Masters`). -/
def Masters : String := "/masters"

/-- Modelled from the spec: the phase-ID root for regular-node phases
(`libphase.Nodes`). -/
def Nodes : String := "/nodes"

/-- Modelled from the spec: `libphase.NewSync(params, ...)` — constructs
the sync executor for the given phase. -/
def newSync (params : ExecutorParams) : Except GoError PhaseExecutor :=
  Except.ok (PhaseExecutor.sync params.phase.pid)

/-- Go's `strings.HasPrefix(s, pre)`, computed on the characters of the
two strings. -/
def hasPrefixGo (s pre : String) : Bool :=
  pre.data.isPrefixOf s.data

/-- `configToExecutor` (fsm.go lines 272-293): the returned spec
function matches the phase ID against the masters and nodes roots —
both resolve to the sync executor — and rejects every other phase ID
with `BadParameter`. -/
def configToExecutor (params : ExecutorParams) : Except GoError PhaseExecutor :=
  if hasPrefixGo params.phase.pid Masters
      || hasPrefixGo params.phase.pid Nodes
  then newSync params
  else Except.error (badParameter ("unknown phase " ++ params.phase.pid))

/-- `engine.GetExecutor` (fsm.go lines 238-240): delegates to the spec
function installed by `New`, which is `configToExecutor`'s closure. -/
def GetExecutor (params : ExecutorParams) : Except GoError PhaseExecutor :=
  configToExecutor params

/-- `engine.RunCommand` (fsm.go lines 244-250): builds the argument
vector `["system", "envars", "--phase", phaseID]`, appends `"--force"`
when `params.Force` is set, and delegates to the runner (modelled as a
function from target server and argument vector to an optional error). -/
def RunCommand (runner : String → List String → Option GoError)
    (server : String) (params : Params) : Option GoError :=
  let args := ["system", "envars", "--phase", params.phaseID]
  let args := if params.force then args ++ ["--force"] else args
  runner server args

/-- The configuration of the engine (`Config`, fsm.go lines 148-161),
restricted to the fields `checkAndSetDefaults` inspects; the Go nil
pointers/interfaces become `none`.  The runner is modelled as in
`RunCommand`, the operator by the engine-facing `Store`. -/
structure Config where
  operation : Option SiteOperation
  operatorSvc : Option Store
  fieldLogger : Option (String × SiteOperationKey)
  runner : Option (String → List String → Option GoError)

/-- `Config.checkAndSetDefaults` (fsm.go lines 127-145): requires
operation, operator and runner; a missing field logger is replaced by
the default `environ` logger keyed by the operation. -/
def Config.checkAndSetDefaults (r : Config) : Except GoError Config :=
  match r.operation with
  | none => Except.error (badParameter "operation is required")
  | some op =>
    match r.operatorSvc with
    | none => Except.error (badParameter "operator service is required")
    | some _ =>
      match r.runner with
      | none => Except.error (badParameter "remote command runner is required")
      | some _ =>
        match r.fieldLogger with
        | none =>
          Except.ok { r with fieldLogger := some ("environ", op.key) }
        | some _ => Except.ok r

/-- The constructed engine (`engine`, fsm.go lines 262-268): its
validated configuration; the spec function and retrying operator it
installs are `configToExecutor` and the `Store`-level behaviours above. -/
structure Engine where
  config : Config

/-- `New` (fsm.go lines 103-124): validates the configuration and
builds the engine and state machine.  `libfsm.New` is modelled from the
spec as succeeding on a validated configuration (its engine and runner
are non-nil by construction here). -/
def New (config : Config) : Except GoError Engine :=
  match config.checkAndSetDefaults with
  | Except.error e => Except.error (traceUnwrap e)
  | Except.ok c => Except.ok { config := c }

/-! Concrete sample values used to witness the theorems below on closed
inputs. -/

/-- A connection-refused (transient transport) error. -/
def errConnRefused : GoError :=
  { msg := "connection refused", connRefused := true }

/-- A non-transient (semantic) error. -/
def errBadRequest : GoError :=
  { kind := ErrKind.badParameter, msg := "bad request" }

/-- A wrapped function that fails twice with a transient error and then
succeeds. -/
def exampleFlakyFn : Nat → Option GoError :=
  fun i => if i < 2 then some errConnRefused else none

/-- A wrapped function that fails with a non-transient error on every
call. -/
def examplePermanentFn : Nat → Option GoError :=
  fun _ => some errBadRequest

/-- A wrapped function that fails transiently once and then succeeds. -/
def exampleRetryOnceFn : Nat → Option GoError :=
  fun i => if i = 0 then some errConnRefused else none

/-- A sample operation. -/
def exampleOp : SiteOperation :=
  { siteDomain := "example.com", opID := "op-1" }

/-- A sample four-phase plan, none of it completed. -/
def examplePlanFour : OperationPlan :=
  { phases :=
      [ OperationPhase.mk "/init" "initialize the operation" 1
          PhaseState.unstarted []
      , OperationPhase.mk "/masters" "update master nodes" 2
          PhaseState.unstarted []
      , OperationPhase.mk "/nodes" "update regular nodes" 3
          PhaseState.unstarted []
      , OperationPhase.mk "/fini" "finalize the operation" 4
          PhaseState.unstarted [] ] }

/-- A sample plan whose every leaf phase is completed (one leaf is
nested below a non-leaf parent whose own state is not `completed`). -/
def examplePlanDone : OperationPlan :=
  { phases :=
      [ OperationPhase.mk "/masters" "update master nodes" 1
          PhaseState.completed []
      , OperationPhase.mk "/nodes" "update regular nodes" 2
          PhaseState.inProgress
          [ OperationPhase.mk "/nodes/node-1" "update node-1" 1
              PhaseState.completed [] ] ] }

/-- The step-2 phase of `examplePlanFour`. -/
def examplePhaseMasters : OperationPhase :=
  OperationPhase.mk "/masters" "update master nodes" 2 PhaseState.unstarted []

/-- A sample store holding the (incomplete) four-phase plan, with every
store call succeeding. -/
def exampleStore : Store :=
  { planResult := Except.ok examplePlanFour
    progressWriteResult := none
    completeOperationResult := none
    failOperationResult := none
    opState := OpState.active
    progress := [] }

/-- A sample store holding the completed plan. -/
def exampleStoreDone : Store :=
  { exampleStore with planResult := Except.ok examplePlanDone }

/-- A sample backend holding the four-phase plan with an empty
changelog. -/
def exampleBackend : Backend :=
  { plan := examplePlanFour, changelog := [] }

/-- A sample state change: the masters phase moves to `InProgress`. -/
def exampleChange : StateChange :=
  { phase := "/masters", state := PhaseState.inProgress, error := none }

/-- A sample remote runner that accepts every invocation. -/
def exampleRunner : String → List String → Option GoError :=
  fun _ _ => none

/-- Sample executor parameters for the masters phase. -/
def exampleParamsMasters : ExecutorParams :=
  { phase := examplePhaseMasters }

/-- Sample executor parameters for a phase with an unknown ID. -/
def exampleParamsUnknown : ExecutorParams :=
  { phase := OperationPhase.mk "/bogus" "unknown work" 1 PhaseState.unstarted [] }

/-- A sample valid engine configuration without a logger. -/
def exampleFullConfig : Config :=
  { operation := some exampleOp
    operatorSvc := some exampleStore
    fieldLogger := none
    runner := some exampleRunner }

/-- A sample configuration missing the operation. -/
def exampleBadConfig : Config :=
  { operation := none
    operatorSvc := some exampleStore
    fieldLogger := none
    runner := some exampleRunner }

/-! Helper lemmas about one step of the retry loop. -/

/-- One step of the retry loop: a successful attempt stops the loop. -/
theorem retryStepSuccess (d : Nat) (intv : Nat → Nat) (fn : Nat → RetryOutcome)
    (i t : Nat) (hfn : fn i = RetryOutcome.success) :
    retryWithInterval d intv fn i t = (none, 1) := by
  rw [retryWithInterval.eq_def, hfn]

/-- One step of the retry loop: a permanent error stops the loop at
once, returning that error. -/
theorem retryStepPermanent (d : Nat) (intv : Nat → Nat)
    (fn : Nat → RetryOutcome) (i t : Nat) (e : GoError)
    (hfn : fn i = RetryOutcome.permanentErr e) :
    retryWithInterval d intv fn i t = (some e, 1) := by
  rw [retryWithInterval.eq_def, hfn]

/-- One step of the retry loop: a transient error within the deadline
leads to a retry. -/
theorem retryStepTransient (d : Nat) (intv : Nat → Nat)
    (fn : Nat → RetryOutcome) (i t : Nat) (e : GoError)
    (hfn : fn i = RetryOutcome.transientErr e)
    (hlt : t + intv i + 1 < d) :
    retryWithInterval d intv fn i t =
      ((retryWithInterval d intv fn (i + 1) (t + intv i + 1)).1,
       (retryWithInterval d intv fn (i + 1) (t + intv i + 1)).2 + 1) := by
  rw [retryWithInterval.eq_def, hfn]
  simp [hlt]

/-- One step of the retry loop: a transient error at the deadline stops
the loop with that error (the context cancels the backoff). -/
theorem retryStepTimeout (d : Nat) (intv : Nat → Nat)
    (fn : Nat → RetryOutcome) (i t : Nat) (e : GoError)
    (hfn : fn i = RetryOutcome.transientErr e)
    (hge : ¬ t + intv i + 1 < d) :
    retryWithInterval d intv fn i t = (some e, 1) := by
  rw [retryWithInterval.eq_def, hfn]
  simp [hge]

/-- A transient attempt result is a non-nil connection-refused error. -/
theorem isTransientRes_elim (res : Option GoError)
    (h : isTransientRes res = true) :
    ∃ e, res = some e ∧ e.connRefused = true := by
  cases res with
  | none => simp [isTransientRes] at h
  | some e => exact ⟨e, rfl, h⟩

/-- The retry loop makes at least one call. -/
theorem retryWithInterval_calls_pos (d : Nat) (intv : Nat → Nat)
    (fn : Nat → RetryOutcome) (i t : Nat) :
    1 ≤ (retryWithInterval d intv fn i t).2 := by
  rw [retryWithInterval.eq_def]
  cases hfn : fn i with
  | success => simp
  | permanentErr e => simp
  | transientErr e =>
    by_cases hlt : t + intv i + 1 < d
    · simp [hlt]
    · simp [hlt]

/-- The retry loop started at elapsed time `t` makes at most
`d - t + 1` calls: each retry consumes at least one time unit of the
deadline budget. -/
theorem retryWithInterval_calls_le (d : Nat) (intv : Nat → Nat)
    (fn : Nat → RetryOutcome) :
    ∀ m i t, d - t ≤ m → (retryWithInterval d intv fn i t).2 ≤ d - t + 1 := by
  intro m
  induction m with
  | zero =>
    intro i t hm
    rw [retryWithInterval.eq_def]
    cases hfn : fn i with
    | success => simp
    | permanentErr e => simp
    | transientErr e =>
      have hge : ¬ t + intv i + 1 < d := by omega
      simp [hge]
  | succ m ih =>
    intro i t hm
    rw [retryWithInterval.eq_def]
    cases hfn : fn i with
    | success => simp
    | permanentErr e => simp
    | transientErr e =>
      by_cases hlt : t + intv i + 1 < d
      · simp only [hlt, dif_pos]
        have h2 := ih (i + 1) (t + intv i + 1) (by omega)
        omega
      · simp [hlt]

/-- C1: the retry wrapper classifies errors binarily — a call failing
with a connection-refused (transient) error is retried, a call failing
with any other error stops the wrapper immediately, which returns that
error after exactly 1 call; a function failing twice transiently and
then succeeding yields success after exactly 3 calls. -/
theorem claim_C1 (fn : Nat → Option GoError) (e : GoError) :
    (fn 0 = some e → e.connRefused = false → retry fn = (some e, 1))
    ∧ (isTransientRes (fn 0) = true → 2 ≤ (retry fn).2)
    ∧ (isTransientRes (fn 0) = true → isTransientRes (fn 1) = true →
        fn 2 = none → retry fn = (none, 3)) := by
  refine ⟨?_, ?_, ?_⟩
  · intro hfn hperm
    unfold retry
    exact retryStepPermanent _ _ _ 0 0 e (by simp [retryClassify, hfn, hperm])
  · intro htr
    obtain ⟨e0, hfn0, hcr0⟩ := isTransientRes_elim _ htr
    unfold retry
    rw [retryStepTransient _ _ _ 0 0 e0 (by simp [retryClassify, hfn0, hcr0])
      (by norm_num [expBackoffInterval, maxRetryElapsedTime, timeMinute])]
    have h1 := retryWithInterval_calls_pos maxRetryElapsedTime
      expBackoffInterval (fun i => retryClassify (fn i)) 1
      (0 + expBackoffInterval 0 + 1)
    exact Nat.add_le_add_right h1 1
  · intro htr0 htr1 hfn2
    obtain ⟨e0, hfn0, hcr0⟩ := isTransientRes_elim _ htr0
    obtain ⟨e1, hfn1, hcr1⟩ := isTransientRes_elim _ htr1
    unfold retry
    rw [retryStepTransient _ _ _ 0 0 e0 (by simp [retryClassify, hfn0, hcr0])
        (by norm_num [expBackoffInterval, maxRetryElapsedTime, timeMinute]),
      retryStepTransient _ _ _ 1 _ e1 (by simp [retryClassify, hfn1, hcr1])
        (by norm_num [expBackoffInterval, maxRetryElapsedTime, timeMinute]),
      retryStepSuccess _ _ _ 2 _ (by simp [retryClassify, hfn2])]

/-- Witness for C1: the wrapped function that fails transiently twice
then succeeds is called exactly 3 times and yields success; the wrapped
function that fails with a non-transient error yields that error after
exactly 1 call. -/
theorem claim_C1_witness :
    retry exampleFlakyFn = (none, 3)
    ∧ retry examplePermanentFn = (some errBadRequest, 1) := by
  constructor
  · exact (claim_C1 exampleFlakyFn errBadRequest).2.2 (by decide) (by decide)
      (by decide)
  · exact (claim_C1 examplePermanentFn errBadRequest).1 rfl rfl

/-- C8: the retry loop is bounded by the fixed wall-clock ceiling
`maxRetryElapsedTime = 5 * time.Minute` (in nanoseconds): every retried
operation runs under that deadline, the loop makes at most
`maxRetryElapsedTime + 1` calls, and once elapsed time reaches the
deadline the context cancels the loop, which makes no further retry. -/
theorem claim_C8 :
    maxRetryElapsedTime = 5 * timeMinute
    ∧ timeMinute = 60 * 1000000000
    ∧ (∀ fn, (retry fn).2 ≤ maxRetryElapsedTime + 1)
    ∧ (∀ intv fn i t, maxRetryElapsedTime ≤ t →
        (retryWithInterval maxRetryElapsedTime intv fn i t).2 = 1) := by
  refine ⟨rfl, rfl, ?_, ?_⟩
  · intro fn
    have h := retryWithInterval_calls_le maxRetryElapsedTime
      expBackoffInterval (fun i => retryClassify (fn i))
      maxRetryElapsedTime 0 0 (by omega)
    unfold retry
    omega
  · intro intv fn i t ht
    rw [retryWithInterval.eq_def]
    cases hfn : fn i with
    | success => rfl
    | permanentErr e => rfl
    | transientErr e =>
      have hge : ¬ t + intv i + 1 < maxRetryElapsedTime := by omega
      simp [hge]

/-- Witness for C8: at an elapsed time equal to the ceiling the loop
makes exactly one (final) call, and a concrete retried operation makes
no more than the ceiling-plus-one calls. -/
theorem claim_C8_witness :
    (retryWithInterval maxRetryElapsedTime (fun _ => 0)
      (fun _ => RetryOutcome.transientErr errConnRefused) 0
      maxRetryElapsedTime).2 = 1
    ∧ (retry examplePermanentFn).2 ≤ maxRetryElapsedTime + 1 := by
  constructor
  · exact claim_C8.2.2.2 (fun _ => 0)
      (fun _ => RetryOutcome.transientErr errConnRefused) 0
      maxRetryElapsedTime (le_refl _)
  · exact claim_C8.2.2.1 examplePermanentFn

/-- Counterexample for C2: the claim quantifies over every error
argument, but with a nil `fsmErr` and an incomplete plan `Complete`
dereferences a nil error value (modelled by the outer `none`) instead of
marking the operation failed and returning normally. -/
theorem claim_C2_counterexample :
    IsCompleted examplePlanFour = false
    ∧ Complete exampleStore exampleOp none = none := by
  exact ⟨rfl, rfl⟩

/-- C2 (amended): `Complete(fsmErr)` inspects `IsCompleted` on the
freshly fetched plan — if every leaf phase is completed it marks the
whole operation `Completed` via `CompleteOperation`, and otherwise,
provided `fsmErr` is non-nil, it marks the operation `Failed` with the
unwrapped `fsmErr`'s message via `FailOperation`; it returns an error
exactly when fetching the plan or the chosen state-store call fails. -/
theorem claim_C2 (s : Store) (op : SiteOperation) (fsmErr : Option GoError) :
    (∀ e, GetPlan s = Except.error e →
      Complete s op fsmErr = some (some e, s))
    ∧ (∀ plan, GetPlan s = Except.ok plan → IsCompleted plan = true →
        Complete s op fsmErr = some (s.completeOperation op.key)
        ∧ (s.completeOperation op.key).1 = s.completeOperationResult
        ∧ (s.completeOperationResult = none →
            (s.completeOperation op.key).2.opState = OpState.completedOp))
    ∧ (∀ plan e, GetPlan s = Except.ok plan → IsCompleted plan = false →
        fsmErr = some e →
        Complete s op fsmErr = some (s.failOperation op.key e.msg)
        ∧ (s.failOperation op.key e.msg).1 = s.failOperationResult
        ∧ (s.failOperationResult = none →
            (s.failOperation op.key e.msg).2.opState
              = OpState.failedOp e.msg)) := by
  refine ⟨?_, ?_, ?_⟩
  · intro e hplan
    unfold Complete
    rw [hplan]
    rfl
  · intro plan hplan hdone
    refine ⟨?_, ?_, ?_⟩
    · unfold Complete
      rw [hplan]
      simp [hdone]
    · unfold Store.completeOperation
      cases s.completeOperationResult <;> rfl
    · intro hok
      unfold Store.completeOperation
      rw [hok]
  · intro plan e hplan hnotdone herr
    refine ⟨?_, ?_, ?_⟩
    · unfold Complete
      rw [hplan, herr]
      simp [hnotdone, traceUnwrap]
    · unfold Store.failOperation
      cases s.failOperationResult <;> rfl
    · intro hok
      unfold Store.failOperation
      rw [hok]

/-- Witness for C2 (amended): on the store holding the completed plan,
`Complete` marks the operation completed and returns no error; on the
store holding the incomplete plan and a non-nil terminal error, it marks
the operation failed with that error's message. -/
theorem claim_C2_witness :
    Complete exampleStoreDone exampleOp none
      = some (exampleStoreDone.completeOperation exampleOp.key)
    ∧ (exampleStoreDone.completeOperation exampleOp.key).2.opState
      = OpState.completedOp
    ∧ Complete exampleStore exampleOp (some errBadRequest)
      = some (exampleStore.failOperation exampleOp.key errBadRequest.msg)
    ∧ (exampleStore.failOperation exampleOp.key errBadRequest.msg).2.opState
      = OpState.failedOp "bad request" := by
  obtain ⟨h1, -, h2⟩ :=
    (claim_C2 exampleStoreDone exampleOp none).2.1 examplePlanDone rfl rfl
  obtain ⟨h3, -, h4⟩ :=
    (claim_C2 exampleStore exampleOp (some errBadRequest)).2.2
      examplePlanFour errBadRequest rfl rfl rfl
  exact ⟨h1, h2 rfl, h3, h4 rfl⟩

/-- C9: whenever the fetched plan is not completed, `Complete` evaluates
`trace.Unwrap(fsmErr).Error()`: with a nil `fsmErr` the call
dereferences a nil error value (the modelled panic), and under the
hypothesis that `fsmErr` is non-nil the branch is safe and returns
normally. -/
theorem claim_C9 (s : Store) (op : SiteOperation) (plan : OperationPlan)
    (hplan : GetPlan s = Except.ok plan) (hnot : IsCompleted plan = false) :
    Complete s op none = none
    ∧ ∀ e, (Complete s op (some e)).isSome = true := by
  constructor
  · unfold Complete
    rw [hplan]
    simp [hnot]
  · intro e
    unfold Complete
    rw [hplan]
    simp [hnot]

/-- Witness for C9: on the store holding the incomplete four-phase plan,
`Complete` with a nil terminal error hits the nil dereference, and with
a non-nil terminal error it is well-defined. -/
theorem claim_C9_witness :
    Complete exampleStore exampleOp none = none
    ∧ (Complete exampleStore exampleOp (some errConnRefused)).isSome = true := by
  obtain ⟨h1, h2⟩ := claim_C9 exampleStore exampleOp examplePlanFour rfl rfl
  exact ⟨h1, h2 errConnRefused⟩

/-- C3: the progress entry written by `UpdateProgress` has completion
percentage `100 / max(total phases, 1) * step` (Go integer arithmetic)
and message equal to the phase's description; for a 4-phase plan at
step 2 the completion equals 50. -/
theorem claim_C3 (s : Store) (op : SiteOperation) (now : Nat)
    (params : Params) (plan : OperationPlan) (phase : OperationPhase)
    (hplan : GetPlan s = Except.ok plan)
    (hphase : FindPhase plan params.phaseID = Except.ok phase)
    (hwrite : s.progressWriteResult = none) :
    (UpdateProgress s op now params).2.progress
      = s.progress ++ [progressEntryOf op plan phase now]
    ∧ (progressEntryOf op plan phase now).completion
      = 100 / utilsMax plan.phases.length 1 * phase.step
    ∧ (progressEntryOf op plan phase now).message = phase.description
    ∧ (plan.phases.length = 4 → phase.step = 2 →
        (progressEntryOf op plan phase now).completion = 50) := by
  refine ⟨?_, rfl, rfl, ?_⟩
  · simp [UpdateProgress, hplan, hphase, Store.createProgressEntry, hwrite]
  · intro h4 h2
    simp [progressEntryOf, utilsMax, h4, h2]

/-- Witness for C3: on the four-phase sample plan at the step-2 masters
phase, the entry appended to the store's progress log has completion 50
and the phase's description as its message. -/
theorem claim_C3_witness :
    (UpdateProgress exampleStore exampleOp 7
      { phaseID := "/masters", force := false }).2.progress
      = [progressEntryOf exampleOp examplePlanFour examplePhaseMasters 7]
    ∧ (progressEntryOf exampleOp examplePlanFour examplePhaseMasters 7).completion
      = 50
    ∧ (progressEntryOf exampleOp examplePlanFour examplePhaseMasters 7).message
      = "update master nodes" := by
  obtain ⟨h1, -, h3, h4⟩ :=
    claim_C3 exampleStore exampleOp 7 { phaseID := "/masters", force := false }
      examplePlanFour examplePhaseMasters rfl rfl rfl
  exact ⟨h1, h4 rfl rfl, h3⟩

/-- C4: `UpdateProgress` is best-effort — when the plan fetch and the
phase lookup succeed it returns no error even if the progress write
fails, and it returns an error only when `GetPlan` fails or the phase ID
is not found in the plan. -/
theorem claim_C4 (s : Store) (op : SiteOperation) (now : Nat)
    (params : Params) :
    (∀ plan phase, GetPlan s = Except.ok plan →
      FindPhase plan params.phaseID = Except.ok phase →
      (UpdateProgress s op now params).1 = none)
    ∧ (∀ e, (UpdateProgress s op now params).1 = some e →
        GetPlan s = Except.error e
        ∨ ∃ plan, GetPlan s = Except.ok plan
            ∧ FindPhase plan params.phaseID = Except.error e) := by
  constructor
  · intro plan phase hplan hphase
    simp [UpdateProgress, hplan, hphase]
  · intro e he
    cases hp : GetPlan s with
    | error e0 =>
      simp only [UpdateProgress, hp, traceWrap] at he
      left
      injection he with h0
      rw [h0]
    | ok plan =>
      right
      refine ⟨plan, rfl, ?_⟩
      cases hf : FindPhase plan params.phaseID with
      | error e1 =>
        simp only [UpdateProgress, hp, hf, traceWrap] at he
        injection he with h1
        rw [h1]
      | ok phase =>
        simp [UpdateProgress, hp, hf] at he

/-- Witness for C4: on the sample store a progress-write failure does
not make `UpdateProgress` fail. -/
theorem claim_C4_witness :
    (UpdateProgress
      { exampleStore with progressWriteResult := some errConnRefused }
      exampleOp 7 { phaseID := "/masters", force := false }).1 = none := by
  exact (claim_C4 { exampleStore with progressWriteResult := some errConnRefused }
      exampleOp 7 { phaseID := "/masters", force := false }).1
    examplePlanFour examplePhaseMasters rfl rfl

/-- C5: `ChangePhaseState` builds an audit record carrying the phase ID,
the new state, the optional error detail, the timestamp and the
operation key; on success the record is appended to the changelog and
the transition applied to the persisted plan; the append is retried
against transient backend failures, and an error is returned only when
the retried append fails. -/
theorem claim_C5 (op : SiteOperation) (b : Backend)
    (attempts : Nat → Option GoError) (newID : String) (now : Nat)
    (change : StateChange) :
    ((planChangeOf op newID now change).phaseID = change.phase
      ∧ (planChangeOf op newID now change).newState = change.state
      ∧ (planChangeOf op newID now change).errorDetail
          = toRawTrace change.error
      ∧ (planChangeOf op newID now change).created = now
      ∧ (planChangeOf op newID now change).clusterName = op.siteDomain
      ∧ (planChangeOf op newID now change).operationID = op.opID)
    ∧ ((retry attempts).1 = none →
        ChangePhaseState op b attempts newID now change
          = (none, b.applyChange (planChangeOf op newID now change))
        ∧ (b.applyChange (planChangeOf op newID now change)).changelog
            = b.changelog ++ [planChangeOf op newID now change]
        ∧ (b.applyChange (planChangeOf op newID now change)).plan.phases
            = setPhaseStateList b.plan.phases change.phase change.state)
    ∧ (isTransientRes (attempts 0) = true → attempts 1 = none →
        (ChangePhaseState op b attempts newID now change).1 = none)
    ∧ (∀ e, (ChangePhaseState op b attempts newID now change).1 = some e →
        (retry attempts).1 = some e) := by
  have hretry : isTransientRes (attempts 0) = true → attempts 1 = none →
      (retry attempts).1 = none := by
    intro htr h1
    obtain ⟨e0, hfn0, hcr0⟩ := isTransientRes_elim _ htr
    unfold retry
    rw [retryStepTransient _ _ _ 0 0 e0 (by simp [retryClassify, hfn0, hcr0])
        (by norm_num [expBackoffInterval, maxRetryElapsedTime, timeMinute]),
      retryStepSuccess _ _ _ 1 _ (by simp [retryClassify, h1])]
  refine ⟨⟨rfl, rfl, rfl, rfl, rfl, rfl⟩, ?_, ?_, ?_⟩
  · intro hok
    refine ⟨?_, rfl, rfl⟩
    simp [ChangePhaseState, hok]
  · intro htr h1
    simp [ChangePhaseState, hretry htr h1]
  · intro e he
    cases hr : (retry attempts).1 with
    | none => simp [ChangePhaseState, hr] at he
    | some e1 =>
      simp only [ChangePhaseState, hr, traceWrap] at he
      injection he with h2
      rw [h2]

/-- Witness for C5: with a backend that refuses the first connection and
accepts the second, `ChangePhaseState` succeeds, and the concrete audit
record carries the changed phase's ID. -/
theorem claim_C5_witness :
    (ChangePhaseState exampleOp exampleBackend exampleRetryOnceFn "uuid-1" 5
      exampleChange).1 = none
    ∧ (planChangeOf exampleOp "uuid-1" 5 exampleChange).phaseID
      = "/masters" := by
  obtain ⟨hfields, -, htr, -⟩ :=
    claim_C5 exampleOp exampleBackend exampleRetryOnceFn "uuid-1" 5
      exampleChange
  exact ⟨htr (by decide) (by decide), hfields.1⟩

/-- C6: `GetExecutor` resolves a phase through the spec function by
matching the phase ID against the masters and nodes prefixes, both of
which resolve to the sync executor; every phase whose ID matches neither
prefix yields no executor and a `BadParameter` error. -/
theorem claim_C6 (params : ExecutorParams) :
    ((hasPrefixGo params.phase.pid Masters
        || hasPrefixGo params.phase.pid Nodes) = true →
      GetExecutor params = Except.ok (PhaseExecutor.sync params.phase.pid))
    ∧ ((hasPrefixGo params.phase.pid Masters
        || hasPrefixGo params.phase.pid Nodes) = false →
      ∃ e, GetExecutor params = Except.error e
        ∧ e.kind = ErrKind.badParameter) := by
  constructor
  · intro h
    simp [GetExecutor, configToExecutor, newSync, h]
  · intro h
    refine ⟨badParameter ("unknown phase " ++ params.phase.pid), ?_, rfl⟩
    simp [GetExecutor, configToExecutor, h]

/-- Witness for C6: the masters phase resolves to the sync executor and
the `/bogus` phase is rejected with `BadParameter`. -/
theorem claim_C6_witness :
    GetExecutor exampleParamsMasters
      = Except.ok (PhaseExecutor.sync "/masters")
    ∧ ∃ e, GetExecutor exampleParamsUnknown = Except.error e
        ∧ e.kind = ErrKind.badParameter := by
  exact ⟨(claim_C6 exampleParamsMasters).1 (by decide),
    (claim_C6 exampleParamsUnknown).2 (by decide)⟩

/-- C7: `RunCommand` invokes the runner with the engine's subcommand
tokens followed by `--phase` and the phase ID, with `--force` appended
iff the `Force` parameter is set, and returns exactly the runner's
result. -/
theorem claim_C7 (runner : String → List String → Option GoError)
    (server : String) (params : Params) :
    RunCommand runner server params
      = runner server (["system", "envars", "--phase", params.phaseID]
          ++ if params.force then ["--force"] else []) := by
  cases params with
  | mk pid force => cases force <;> rfl

/-- C10: `New` validates the configuration — it returns no machine and a
`BadParameter` error whenever the operation, operator or runner is
missing; when all three are present construction proceeds, a missing
field logger is replaced by the default logger, and the constructed
engine has all four present. -/
theorem claim_C10 (config : Config) :
    ((config.operation = none ∨ config.operatorSvc = none
        ∨ config.runner = none) →
      ∃ e, New config = Except.error e ∧ e.kind = ErrKind.badParameter)
    ∧ (∀ op st r, config.operation = some op →
        config.operatorSvc = some st → config.runner = some r →
        ∃ eng, New config = Except.ok eng
          ∧ eng.config.operation = some op
          ∧ eng.config.operatorSvc.isSome = true
          ∧ eng.config.runner.isSome = true
          ∧ eng.config.fieldLogger.isSome = true) := by
  constructor
  · intro h
    cases hop : config.operation with
    | none =>
      refine ⟨badParameter "operation is required", ?_, rfl⟩
      simp [New, Config.checkAndSetDefaults, hop, traceUnwrap]
    | some op =>
      cases hsv : config.operatorSvc with
      | none =>
        refine ⟨badParameter "operator service is required", ?_, rfl⟩
        simp [New, Config.checkAndSetDefaults, hop, hsv, traceUnwrap]
      | some st =>
        cases hrn : config.runner with
        | none =>
          refine ⟨badParameter "remote command runner is required", ?_, rfl⟩
          simp [New, Config.checkAndSetDefaults, hop, hsv, hrn, traceUnwrap]
        | some r =>
          rcases h with h | h | h
          · rw [h] at hop; exact Option.noConfusion hop
          · rw [h] at hsv; exact Option.noConfusion hsv
          · rw [h] at hrn; exact Option.noConfusion hrn
  · intro op st r ho hs hr
    cases hfl : config.fieldLogger with
    | none =>
      refine ⟨{ config := { config with fieldLogger := some ("environ", op.key) } },
        ?_, ?_, ?_, ?_, ?_⟩
      · simp [New, Config.checkAndSetDefaults, ho, hs, hr, hfl, traceUnwrap]
      · simp [ho]
      · simp [hs]
      · simp [hr]
      · simp
    | some l =>
      refine ⟨{ config := config }, ?_, ?_, ?_, ?_, ?_⟩
      · simp [New, Config.checkAndSetDefaults, ho, hs, hr, hfl, traceUnwrap]
      · exact ho
      · rw [hs]; rfl
      · rw [hr]; rfl
      · rw [hfl]; rfl

/-- Witness for C10: the full sample configuration constructs an engine
with a defaulted logger, and the configuration missing its operation is
rejected with `BadParameter`. -/
theorem claim_C10_witness :
    (∃ eng, New exampleFullConfig = Except.ok eng
      ∧ eng.config.fieldLogger.isSome = true)
    ∧ (∃ e, New exampleBadConfig = Except.error e
      ∧ e.kind = ErrKind.badParameter) := by
  constructor
  · obtain ⟨eng, h1, -, -, -, h5⟩ :=
      (claim_C10 exampleFullConfig).2 exampleOp exampleStore exampleRunner
        rfl rfl rfl
    exact ⟨eng, h1, h5⟩
  · exact (claim_C10 exampleBadConfig).1 (Or.inl rfl)

end Environ
